import Mathlib

/-!
Verification development for the rafdb storage engine
(src/internal/storage/database.go), a document store with named
collections of JSON-like documents, an equality query evaluator and a
JSON snapshot codec.

Modelling conventions:
* Go `interface{}` values produced by `encoding/json` (null, bool,
  float64, string, `[]interface{}`, `map[string]interface{}`) are the
  inductive `Value`; float64 numbers are modelled as rationals.
* Go maps (`map[string]*Collection`, `map[string]*Document`,
  `map[string]interface{}`) are association lists with unique keys;
  map iteration order is not significant in the source, and lookup /
  replace / erase act on the first matching key.
* `time.Time` instants are modelled as natural numbers (nanoseconds);
  `time.Now()` becomes an explicit `now : Nat` argument.
* Go methods that mutate their receiver and return `error` become
  functions returning `Except DBError Unit × <new state>`.
* Go's `==` on two `interface{}` values is partial: it panics when both
  dynamic types are the same non-comparable type (`[]interface{}` or
  `map[string]interface{}`).  It is modelled as `goEq : Value → Value →
  Option Bool`, `none` standing for the runtime panic.
-/

/-- JSON-like document field values, as produced by Go `encoding/json`
into `interface{}`: null, bool, float64 (modelled as a rational),
string, array, object. -/
inductive Value : Type
  | null : Value
  | bool : Bool → Value
  | num : Rat → Value
  | str : String → Value
  | arr : List Value → Value
  | obj : List (String × Value) → Value

/-- Error taxonomy of the engine (the Go code returns `fmt.Errorf`
values; only the kind and the offending key matter). -/
inductive DBError : Type
  | alreadyExists : String → DBError
  | notFound : String → DBError
  | corruptSnapshot : DBError
  | readFailed : DBError
deriving DecidableEq

/-- First-match lookup in an association list (Go map indexing). -/
def lookupA {κ : Type} [DecidableEq κ] {α : Type} : List (κ × α) → κ → Option α
  | [], _ => none
  | (k, v) :: rest, key => if k = key then some v else lookupA rest key

/-- Replace the value at the first matching key (Go map assignment to an
existing key). -/
def setKeyA {κ : Type} [DecidableEq κ] {α : Type} : List (κ × α) → κ → α → List (κ × α)
  | [], _, _ => []
  | (k, v) :: rest, key, v' =>
    if k = key then (k, v') :: rest else (k, v) :: setKeyA rest key v'

/-- Remove the first matching key (Go `delete` on a map). -/
def eraseA {κ : Type} [DecidableEq κ] {α : Type} : List (κ × α) → κ → List (κ × α)
  | [], _ => []
  | (k, v) :: rest, key => if k = key then rest else (k, v) :: eraseA rest key

/-- Document: `ID`, `Data`, `CreatedAt`, `UpdatedAt`
(struct `Document` in database.go). -/
structure Document : Type where
  id : String
  data : List (String × Value)
  createdAt : Nat
  updatedAt : Nat

/-- Collection: `Name` plus the `Documents` map
(struct `Collection` in database.go; the mutex guards concurrency only
and carries no value-level state). -/
structure Collection : Type where
  name : String
  documents : List (String × Document)

/-- Database: the `Collections` map (struct `Database` in database.go;
`dataFile` names the backing file and `mu` is the catalog lock, neither
carries value-level state). -/
structure Database : Type where
  collections : List (String × Collection)

/-- `NewDatabase`: empty catalog. -/
def NewDatabase : Database := ⟨[]⟩

/-- `Database.CreateCollection`: fail if the name is present, otherwise
add an empty collection with that name. -/
def Database.CreateCollection (db : Database) (name : String) :
    Except DBError Unit × Database :=
  match lookupA db.collections name with
  | some _ => (Except.error (DBError.alreadyExists name), db)
  | none =>
      (Except.ok (),
       ⟨db.collections ++ [(name, ⟨name, []⟩)]⟩)

/-- `Database.GetCollection`: look the collection up by name. -/
def Database.GetCollection (db : Database) (name : String) :
    Except DBError Collection :=
  match lookupA db.collections name with
  | some c => Except.ok c
  | none => Except.error (DBError.notFound name)

/-- `Database.ListCollections`: all collection names. -/
def Database.ListCollections (db : Database) : List String :=
  db.collections.map Prod.fst

/-- `Database.DeleteCollection`: fail if absent, otherwise remove the
collection (and with it all its documents). -/
def Database.DeleteCollection (db : Database) (name : String) :
    Except DBError Unit × Database :=
  match lookupA db.collections name with
  | none => (Except.error (DBError.notFound name), db)
  | some _ => (Except.ok (), ⟨eraseA db.collections name⟩)

/-- `Collection.Insert`: fail if the id is present, otherwise store a
fresh document with `CreatedAt = UpdatedAt = now`. -/
def Collection.Insert (c : Collection) (id : String)
    (data : List (String × Value)) (now : Nat) :
    Except DBError Unit × Collection :=
  match lookupA c.documents id with
  | some _ => (Except.error (DBError.alreadyExists id), c)
  | none =>
      (Except.ok (),
       ⟨c.name, c.documents ++ [(id, ⟨id, data, now, now⟩)]⟩)

/-- `Collection.Get`: fail if absent, otherwise return the stored
document (the Go code returns a `*Document` into the store; the heap
model below accounts for that aliasing, this is the value read). -/
def Collection.Get (c : Collection) (id : String) : Except DBError Document :=
  match lookupA c.documents id with
  | some d => Except.ok d
  | none => Except.error (DBError.notFound id)

/-- `Collection.Update`: fail if absent, otherwise set `Data := data`
(whole-mapping replacement) and `UpdatedAt := now`, keeping `ID` and
`CreatedAt`. -/
def Collection.Update (c : Collection) (id : String)
    (data : List (String × Value)) (now : Nat) :
    Except DBError Unit × Collection :=
  match lookupA c.documents id with
  | none => (Except.error (DBError.notFound id), c)
  | some d =>
      (Except.ok (),
       ⟨c.name, setKeyA c.documents id ⟨d.id, data, d.createdAt, now⟩⟩)

/-- `Collection.Delete`: fail if absent, otherwise remove the
document. -/
def Collection.Delete (c : Collection) (id : String) :
    Except DBError Unit × Collection :=
  match lookupA c.documents id with
  | none => (Except.error (DBError.notFound id), c)
  | some _ => (Except.ok (), ⟨c.name, eraseA c.documents id⟩)

/-- Go `==` applied to two `interface{}` values holding JSON data.
Equal dynamic types compare by value; different dynamic types compare
unequal; two slices or two maps have the same non-comparable dynamic
type and the comparison panics (`none`). -/
def goEq : Value → Value → Option Bool
  | Value.null, Value.null => some true
  | Value.bool a, Value.bool b => some (decide (a = b))
  | Value.num a, Value.num b => some (decide (a = b))
  | Value.str a, Value.str b => some (decide (a = b))
  | Value.arr _, Value.arr _ => none
  | Value.obj _, Value.obj _ => none
  | _, _ => some false

/-- Body of the `Query` scan over the document map: keep a document when
the field is present and `goEq` yields true; propagate a panic of any
comparison as `none`. -/
def queryDocs (field : String) (v : Value) :
    List (String × Document) → Option (List Document)
  | [] => some []
  | (_, d) :: rest =>
      match lookupA d.data field with
      | none => queryDocs field v rest
      | some dv =>
          match goEq dv v with
          | none => none
          | some b =>
              (queryDocs field v rest).map (fun r => if b then d :: r else r)

/-- `Collection.Query`: full scan keeping documents whose `Data[field]`
exists and compares equal to `value` under Go `==`; `none` models the
scan panicking on an uncomparable pair. -/
def Collection.Query (c : Collection) (field : String) (v : Value) :
    Option (List Document) :=
  queryDocs field v c.documents

/-- Does a document match a query, as a predicate: field present and
the comparison defined and true. -/
def docMatches (d : Document) (field : String) (v : Value) : Bool :=
  match lookupA d.data field with
  | none => false
  | some dv => (goEq dv v).getD false

/-- No comparison performed by `Query c field v` panics: every stored
value at `field` is shape-comparable with `v`. -/
def queryComparable (c : Collection) (field : String) (v : Value) : Bool :=
  c.documents.all (fun p =>
    match lookupA p.2.data field with
    | none => true
    | some dv => (goEq dv v).isSome)

/-!
Snapshot codec.  `SaveToDisk` runs `json.MarshalIndent` over the
`Database` struct; the struct tags fix the JSON shape
`{"collections": {name: {"name", "documents": {id: {"id", "data",
"created_at", "updated_at"}}}}}`.  We model the codec at the JSON-value
level: marshalling produces the corresponding `Value` tree (a
`time.Time` marshals as an exact textual rendering of the instant,
modelled as a JSON number holding the nanosecond count).

Unmarshalling follows `encoding/json` semantics for these struct and
map types: fields are matched by name regardless of order, unknown keys
are ignored, absent fields keep their zero value, JSON `null` is a
no-op into a struct or string or time and a nil value into a map or
pointer.  Because `Collections` and `Documents` hold pointers, a loaded
map may contain nil `*Collection` or nil `*Document` entries; the state
`LoadFromDisk` produces is therefore a `GoDatabase`, whose entries are
`Option`-valued, and the mutex-reinitialisation loop after a successful
unmarshal dereferences every loaded `*Collection` — a nil entry makes
it panic, after `db.Collections` has already been replaced.
-/

/-- Marshal one document to its snapshot JSON node. -/
def encodeDocument (d : Document) : Value :=
  Value.obj [("id", Value.str d.id),
             ("data", Value.obj d.data),
             ("created_at", Value.num (d.createdAt : Rat)),
             ("updated_at", Value.num (d.updatedAt : Rat))]

/-- Marshal one collection to its snapshot JSON node. -/
def encodeCollection (c : Collection) : Value :=
  Value.obj [("name", Value.str c.name),
             ("documents",
              Value.obj (c.documents.map (fun p => (p.1, encodeDocument p.2))))]

/-- `SaveToDisk`, value level: marshal the whole catalog. -/
def Database.SaveToDisk (db : Database) : Value :=
  Value.obj [("collections",
              Value.obj (db.collections.map (fun p => (p.1, encodeCollection p.2))))]

/-- A `Collection` as `json.Unmarshal` can actually produce it: the
`Documents` map may contain nil `*Document` entries (`none`). -/
structure GoCollection : Type where
  name : String
  documents : List (String × Option Document)

/-- A `Database` as `json.Unmarshal` can actually produce it: the
`Collections` map may contain nil `*Collection` entries (`none`). -/
structure GoDatabase : Type where
  collections : List (String × Option GoCollection)

/-- View of an engine collection as a loaded one (every pointer
non-nil). -/
def Collection.toGo (c : Collection) : GoCollection :=
  ⟨c.name, c.documents.map (fun p => (p.1, some p.2))⟩

/-- View of an engine catalog as a loaded one (every pointer
non-nil). -/
def Database.toGo (db : Database) : GoDatabase :=
  ⟨db.collections.map (fun p => (p.1, some p.2.toGo))⟩

/-- Unmarshal a timestamp node back to an instant. -/
def decodeTime (v : Value) : Option Nat :=
  match v with
  | Value.num q => if q.den = 1 ∧ 0 ≤ q.num then some q.num.toNat else none
  | _ => none

/-- Unmarshal a JSON field into a Go `string`: absent or `null` keeps
the zero value, a string decodes, anything else is a type error. -/
def unmarshalString : Option Value → Option String
  | none => some ""
  | some Value.null => some ""
  | some (Value.str s) => some s
  | some _ => none

/-- Unmarshal a JSON field into `map[string]interface{}` (the `Data`
field): absent or `null` gives the nil (empty) map, an object decodes
as is, anything else is a type error. -/
def unmarshalData : Option Value → Option (List (String × Value))
  | none => some []
  | some Value.null => some []
  | some (Value.obj m) => some m
  | some _ => none

/-- Unmarshal a JSON field into a `time.Time`: absent or `null` keeps
the zero instant, a valid time node decodes, anything else is a type
error. -/
def unmarshalTime : Option Value → Option Nat
  | none => some 0
  | some Value.null => some 0
  | some v => decodeTime v

/-- Unmarshal a JSON node into a `Document` struct: must be an object;
fields are matched by name, unknown keys ignored, missing fields
zero-filled. -/
def unmarshalDocument (v : Value) : Option Document :=
  match v with
  | Value.obj fs =>
      match unmarshalString (lookupA fs "id"), unmarshalData (lookupA fs "data"),
            unmarshalTime (lookupA fs "created_at"),
            unmarshalTime (lookupA fs "updated_at") with
      | some id, some data, some ca, some ua => some ⟨id, data, ca, ua⟩
      | _, _, _, _ => none
  | _ => none

/-- Unmarshal a JSON node into a `*Document`: `null` is the nil
pointer, otherwise the struct is allocated and unmarshalled. -/
def unmarshalDocPtr : Value → Option (Option Document)
  | Value.null => some none
  | v => (unmarshalDocument v).map some

/-- Unmarshal the entries of a `map[string]*Document` object. -/
def unmarshalDocEntries : List (String × Value) → Option (List (String × Option Document))
  | [] => some []
  | (k, v) :: rest =>
      match unmarshalDocPtr v, unmarshalDocEntries rest with
      | some d, some ds => some ((k, d) :: ds)
      | _, _ => none

/-- Unmarshal a JSON field into `map[string]*Document`: absent or
`null` gives the nil (empty) map, an object decodes entrywise, anything
else is a type error. -/
def unmarshalDocMap : Option Value → Option (List (String × Option Document))
  | none => some []
  | some Value.null => some []
  | some (Value.obj ds) => unmarshalDocEntries ds
  | some _ => none

/-- Unmarshal a JSON node into a `Collection` struct: must be an
object; `name` and `documents` matched by name, unknown keys ignored,
missing fields zero-filled (the unexported mutex is never decoded). -/
def unmarshalCollection (v : Value) : Option GoCollection :=
  match v with
  | Value.obj fs =>
      match unmarshalString (lookupA fs "name"),
            unmarshalDocMap (lookupA fs "documents") with
      | some n, some ds => some ⟨n, ds⟩
      | _, _ => none
  | _ => none

/-- Unmarshal a JSON node into a `*Collection`: `null` is the nil
pointer. -/
def unmarshalColPtr : Value → Option (Option GoCollection)
  | Value.null => some none
  | v => (unmarshalCollection v).map some

/-- Unmarshal the entries of a `map[string]*Collection` object. -/
def unmarshalColEntries : List (String × Value) → Option (List (String × Option GoCollection))
  | [] => some []
  | (k, v) :: rest =>
      match unmarshalColPtr v, unmarshalColEntries rest with
      | some c, some cs => some ((k, c) :: cs)
      | _, _ => none

/-- Unmarshal a JSON field into `map[string]*Collection`: absent or
`null` gives the nil (empty) map, an object decodes entrywise, anything
else is a type error. -/
def unmarshalColMap : Option Value → Option (List (String × Option GoCollection))
  | none => some []
  | some Value.null => some []
  | some (Value.obj cs) => unmarshalColEntries cs
  | some _ => none

/-- `json.Unmarshal` into the `Database` struct: `null` at top level is
a no-op leaving the zero struct, an object binds the `collections`
field by name (ignoring unknown keys, zero-filling when absent),
anything else is a type error. -/
def unmarshalDatabase (v : Value) : Option GoDatabase :=
  match v with
  | Value.null => some ⟨[]⟩
  | Value.obj fs => (unmarshalColMap (lookupA fs "collections")).map GoDatabase.mk
  | _ => none

/-- Strip the `Option` layer off loaded document entries, failing on a
nil pointer. -/
def optListUnwrap {κ : Type} {α : Type} : List (κ × Option α) → Option (List (κ × α))
  | [] => some []
  | (k, some a) :: rest => (optListUnwrap rest).map (fun l => (k, a) :: l)
  | (_, none) :: _ => none

/-- A loaded collection as an engine collection, when no document
pointer is nil. -/
def GoCollection.toCollection? (c : GoCollection) : Option Collection :=
  (optListUnwrap c.documents).map (fun ds => ⟨c.name, ds⟩)

/-- Strip loaded collection entries down to engine collections, failing
on any nil pointer. -/
def colsToDatabase? : List (String × Option GoCollection) → Option (List (String × Collection))
  | [] => some []
  | (k, some gc) :: rest =>
      match gc.toCollection?, colsToDatabase? rest with
      | some c, some cs => some ((k, c) :: cs)
      | _, _ => none
  | (_, none) :: _ => none

/-- A loaded catalog as an engine catalog, when no pointer is nil. -/
def GoDatabase.toDatabase? (g : GoDatabase) : Option Database :=
  (colsToDatabase? g.collections).map Database.mk

/-- Outcome of reading the snapshot file: the file does not exist, the
read fails, or it yields bytes whose JSON parse either fails
(`bytes none`) or produces a value tree. -/
inductive FileRead : Type
  | notExist : FileRead
  | readFail : FileRead
  | bytes : Option Value → FileRead

/-- How a `LoadFromDisk` call ends: normal return without error, normal
return with an error, or a runtime panic. -/
inductive LoadOutcome : Type
  | ok : LoadOutcome
  | err : DBError → LoadOutcome
  | panicked : LoadOutcome

/-- `LoadFromDisk`: a missing file leaves the catalog as it is and is
not an error; a failed read or a failed unmarshal reports an error
without touching the catalog; a successful unmarshal replaces
`Collections` with the loaded mapping and then walks it to give every
collection a fresh zero mutex — if some loaded `*Collection` entry is
nil, that loop dereferences nil and panics, after the catalog has
already been replaced. -/
def Database.LoadFromDisk (db : Database) (file : FileRead) :
    LoadOutcome × GoDatabase :=
  match file with
  | FileRead.notExist => (LoadOutcome.ok, db.toGo)
  | FileRead.readFail => (LoadOutcome.err DBError.readFailed, db.toGo)
  | FileRead.bytes none => (LoadOutcome.err DBError.corruptSnapshot, db.toGo)
  | FileRead.bytes (some v) =>
      match unmarshalDatabase v with
      | none => (LoadOutcome.err DBError.corruptSnapshot, db.toGo)
      | some loaded =>
          if loaded.collections.any (fun p => p.2.isNone)
          then (LoadOutcome.panicked, loaded)
          else (LoadOutcome.ok, loaded)

/-!
Heap model of one collection.  The Go `Documents` map stores
`*Document` pointers; `Get` hands that pointer to the caller and
`Update` writes through it.  To settle aliasing questions we model the
pointer structure explicitly: `docRefs` is the map from id to pointer,
`heap` maps pointers to `Document` cells, `nextRef` is the allocator.
-/

/-- A collection with explicit `*Document` pointers. -/
structure HeapCollection : Type where
  name : String
  docRefs : List (String × Nat)
  heap : List (Nat × Document)
  nextRef : Nat

/-- Dereference a `*Document` obtained from `Get`. -/
def HeapCollection.read (c : HeapCollection) (r : Nat) : Option Document :=
  lookupA c.heap r

/-- `Insert`, heap level: allocate a fresh cell and bind the id to its
pointer. -/
def HeapCollection.Insert (c : HeapCollection) (id : String)
    (data : List (String × Value)) (now : Nat) :
    Except DBError Unit × HeapCollection :=
  match lookupA c.docRefs id with
  | some _ => (Except.error (DBError.alreadyExists id), c)
  | none =>
      (Except.ok (),
       ⟨c.name,
        c.docRefs ++ [(id, c.nextRef)],
        c.heap ++ [(c.nextRef, ⟨id, data, now, now⟩)],
        c.nextRef + 1⟩)

/-- `Get`, heap level: returns the stored pointer itself. -/
def HeapCollection.Get (c : HeapCollection) (id : String) : Except DBError Nat :=
  match lookupA c.docRefs id with
  | some r => Except.ok r
  | none => Except.error (DBError.notFound id)

/-- Write `doc.Data = data; doc.UpdatedAt = now` through the pointer
`r`: mutate the first heap cell bound to `r`. -/
def updateCell : List (Nat × Document) → Nat → List (String × Value) → Nat →
    List (Nat × Document)
  | [], _, _, _ => []
  | (r, d) :: rest, r', data, now =>
      if r = r' then (r, ⟨d.id, data, d.createdAt, now⟩) :: rest
      else (r, d) :: updateCell rest r' data now

/-- `Update`, heap level: look the pointer up and mutate the cell it
points to, in place. -/
def HeapCollection.Update (c : HeapCollection) (id : String)
    (data : List (String × Value)) (now : Nat) :
    Except DBError Unit × HeapCollection :=
  match lookupA c.docRefs id with
  | none => (Except.error (DBError.notFound id), c)
  | some r =>
      (Except.ok (), ⟨c.name, c.docRefs, updateCell c.heap r data now, c.nextRef⟩)

/-- `Delete`, heap level: unbind the id; the cell itself is untouched
(`delete` on the Go map does not rewrite the pointed-to struct). -/
def HeapCollection.Delete (c : HeapCollection) (id : String) :
    Except DBError Unit × HeapCollection :=
  match lookupA c.docRefs id with
  | none => (Except.error (DBError.notFound id), c)
  | some _ => (Except.ok (), ⟨c.name, eraseA c.docRefs id, c.heap, c.nextRef⟩)

/-!
Reachable catalog states.  The mutating operations of the engine, each
stamped with the `time.Now()` value it observes; wall-clock reads at
distinct operations are taken strictly increasing (the monotonic
clock).  Failed operations leave the state unchanged, exactly as the
Go methods return an error before mutating anything.
-/

/-- One mutating engine call. -/
inductive DBOp : Type
  | createCol : String → DBOp
  | deleteCol : String → DBOp
  | insertDoc : String → String → List (String × Value) → DBOp
  | updateDoc : String → String → List (String × Value) → DBOp
  | deleteDoc : String → String → DBOp

/-- Apply one call at clock value `now`; document calls resolve the
collection through the catalog first (`GetCollection`) and the mutation
through the collection pointer is the write-back into the catalog
map. -/
def applyDBOp (db : Database) (op : DBOp) (now : Nat) : Database :=
  match op with
  | DBOp.createCol n => (db.CreateCollection n).2
  | DBOp.deleteCol n => (db.DeleteCollection n).2
  | DBOp.insertDoc cn id data =>
      match lookupA db.collections cn with
      | none => db
      | some c => ⟨setKeyA db.collections cn (c.Insert id data now).2⟩
  | DBOp.updateDoc cn id data =>
      match lookupA db.collections cn with
      | none => db
      | some c => ⟨setKeyA db.collections cn (c.Update id data now).2⟩
  | DBOp.deleteDoc cn id =>
      match lookupA db.collections cn with
      | none => db
      | some c => ⟨setKeyA db.collections cn (c.Delete id).2⟩

/-- Run a stamped trace of engine calls. -/
def runTrace (db : Database) : List (DBOp × Nat) → Database
  | [] => db
  | (op, t) :: rest => runTrace (applyDBOp db op t) rest

/-- Every document of every collection satisfies
`createdAt ≤ updatedAt ≤ bound`. -/
def DocsTimeOK (db : Database) (bound : Nat) : Prop :=
  ∀ pc ∈ db.collections, ∀ pd ∈ pc.2.documents,
    pd.2.createdAt ≤ pd.2.updatedAt ∧ pd.2.updatedAt ≤ bound

/-- Boolean form of the per-document timestamp invariant
`createdAt ≤ updatedAt`, over the whole catalog. -/
def timesOKb (db : Database) : Bool :=
  db.collections.all (fun pc =>
    pc.2.documents.all (fun pd => decide (pd.2.createdAt ≤ pd.2.updatedAt)))

/-- Boolean timestamp bound for one collection: every document has
`createdAt ≤ updatedAt ≤ t`. -/
def docsTimeOKb (c : Collection) (t : Nat) : Bool :=
  c.documents.all (fun pd =>
    decide (pd.2.createdAt ≤ pd.2.updatedAt) && decide (pd.2.updatedAt ≤ t))

/-- The collection of the spec's query example (§8): two documents with
`city = "NY"`, one with `city = "SF"`. -/
def cityColl : Collection :=
  ⟨"users",
   [("u1", ⟨"u1", [("city", Value.str "NY")], 1, 1⟩),
    ("u2", ⟨"u2", [("city", Value.str "NY")], 2, 2⟩),
    ("u3", ⟨"u3", [("city", Value.str "SF")], 3, 3⟩)]⟩

/-- A small example catalog for snapshot round trips. -/
def dbEx : Database := ⟨[("users", cityColl), ("empty", ⟨"empty", []⟩)]⟩

/-- Heap-model runs used for the aliasing claims: empty collection,
after one insert, after one update. -/
def hc0 : HeapCollection := ⟨"users", [], [], 0⟩

/-- State after `Insert "u1" {name: "John"}` at clock 1. -/
def hc1 : HeapCollection := (hc0.Insert "u1" [("name", Value.str "John")] 1).2

/-- State after the further `Update "u1" {name: "Jane"}` at clock 2. -/
def hc2 : HeapCollection := (hc1.Update "u1" [("name", Value.str "Jane")] 2).2

/-- An example stamped trace: create a collection, insert, update. -/
def opsEx : List (DBOp × Nat) :=
  [(DBOp.createCol "c", 1),
   (DBOp.insertDoc "c" "u1" [("a", Value.num 1)], 2),
   (DBOp.updateDoc "c" "u1" [("a", Value.num 2)], 3)]

/-! Association-list lemmas. -/

theorem lookupA_append_self {κ α : Type} [DecidableEq κ] (l : List (κ × α))
    (k : κ) (v : α) (h : lookupA l k = none) :
    lookupA (l ++ [(k, v)]) k = some v := by
  induction l with
  | nil => simp [lookupA]
  | cons p rest ih =>
      obtain ⟨k', v'⟩ := p
      by_cases hk : k' = k
      · simp [lookupA, hk] at h
      · simp only [List.cons_append, lookupA, if_neg hk] at h ⊢
        exact ih h

theorem lookupA_setKeyA_self {κ α : Type} [DecidableEq κ] (l : List (κ × α))
    (k : κ) (b : α) (h : (lookupA l k).isSome) :
    lookupA (setKeyA l k b) k = some b := by
  induction l with
  | nil => simp [lookupA] at h
  | cons p rest ih =>
      obtain ⟨k', v'⟩ := p
      by_cases hk : k' = k
      · simp [lookupA, setKeyA, hk]
      · simp only [lookupA, setKeyA, if_neg hk] at h ⊢
        exact ih h

theorem mem_setKeyA {κ α : Type} [DecidableEq κ] {l : List (κ × α)}
    {k : κ} {b : α} {p : κ × α} (h : p ∈ setKeyA l k b) :
    p ∈ l ∨ p = (k, b) := by
  induction l with
  | nil => simp [setKeyA] at h
  | cons q rest ih =>
      obtain ⟨k', v'⟩ := q
      by_cases hk : k' = k
      · simp only [setKeyA, if_pos hk, List.mem_cons] at h
        rcases h with h | h
        · right; rw [h, hk]
        · left; exact List.mem_cons_of_mem _ h
      · simp only [setKeyA, if_neg hk, List.mem_cons] at h
        rcases h with h | h
        · left; exact h ▸ List.mem_cons_self _ _
        · rcases ih h with h' | h'
          · left; exact List.mem_cons_of_mem _ h'
          · right; exact h'

theorem mem_eraseA {κ α : Type} [DecidableEq κ] {l : List (κ × α)}
    {k : κ} {p : κ × α} (h : p ∈ eraseA l k) : p ∈ l := by
  induction l with
  | nil => simp [eraseA] at h
  | cons q rest ih =>
      obtain ⟨k', v'⟩ := q
      by_cases hk : k' = k
      · simp only [eraseA, if_pos hk] at h
        exact List.mem_cons_of_mem _ h
      · simp only [eraseA, if_neg hk, List.mem_cons] at h
        rcases h with h | h
        · exact h ▸ List.mem_cons_self _ _
        · exact List.mem_cons_of_mem _ (ih h)

theorem lookupA_updateCell (l : List (Nat × Document)) (r : Nat)
    (data : List (String × Value)) (now : Nat) :
    lookupA (updateCell l r data now) r =
      (lookupA l r).map (fun d => ⟨d.id, data, d.createdAt, now⟩) := by
  induction l with
  | nil => simp [updateCell, lookupA]
  | cons p rest ih =>
      obtain ⟨r', d⟩ := p
      by_cases hr : r' = r
      · simp [updateCell, lookupA, hr]
      · simp only [updateCell, if_neg hr, lookupA, if_neg hr]
        exact ih

/-! Query-scan lemma. -/

theorem queryDocs_eq_filter (field : String) (v : Value)
    (l : List (String × Document))
    (h : l.all (fun p =>
      match lookupA p.2.data field with
      | none => true
      | some dv => (goEq dv v).isSome)) :
    queryDocs field v l =
      some ((l.map Prod.snd).filter (fun d => docMatches d field v)) := by
  induction l with
  | nil => simp [queryDocs]
  | cons p rest ih =>
      obtain ⟨k, d⟩ := p
      rw [List.all_cons, Bool.and_eq_true] at h
      obtain ⟨hd, hrest⟩ := h
      have ihr := ih hrest
      cases hl : lookupA d.data field with
      | none =>
          simp [queryDocs, hl, ihr, List.filter_cons, docMatches]
      | some dv =>
          simp only [hl] at hd
          cases hg : goEq dv v with
          | none => rw [hg] at hd; simp at hd
          | some b =>
              simp only [queryDocs, hl, hg, ihr, Option.map_some,
                List.map_cons, List.filter_cons, docMatches]
              cases b <;> simp [hg]

/-! Codec round-trip lemmas. -/

theorem decodeTime_natCast (n : Nat) :
    decodeTime (Value.num (n : Rat)) = some n := by
  simp [decodeTime, Rat.den_natCast, Rat.num_natCast]

theorem unmarshalDocument_encode (d : Document) :
    unmarshalDocument (encodeDocument d) = some d := by
  obtain ⟨id, data, ca, ua⟩ := d
  simp [encodeDocument, unmarshalDocument, lookupA, unmarshalString,
    unmarshalData, unmarshalTime, decodeTime_natCast]

theorem unmarshalDocPtr_encode (d : Document) :
    unmarshalDocPtr (encodeDocument d) = some (some d) := by
  have h := unmarshalDocument_encode d
  rw [encodeDocument] at h ⊢
  simp [unmarshalDocPtr, h]

theorem unmarshalDocEntries_encode (l : List (String × Document)) :
    unmarshalDocEntries (l.map (fun p => (p.1, encodeDocument p.2))) =
      some (l.map (fun p => (p.1, some p.2))) := by
  induction l with
  | nil => simp [unmarshalDocEntries]
  | cons p rest ih =>
      simp [unmarshalDocEntries, unmarshalDocPtr_encode, ih]

theorem unmarshalCollection_encode (c : Collection) :
    unmarshalCollection (encodeCollection c) = some c.toGo := by
  simp [encodeCollection, unmarshalCollection, lookupA, unmarshalString,
    unmarshalDocMap, unmarshalDocEntries_encode, Collection.toGo]

theorem unmarshalColPtr_encode (c : Collection) :
    unmarshalColPtr (encodeCollection c) = some (some c.toGo) := by
  have h := unmarshalCollection_encode c
  rw [encodeCollection] at h ⊢
  simp [unmarshalColPtr, h]

theorem unmarshalColEntries_encode (l : List (String × Collection)) :
    unmarshalColEntries (l.map (fun p => (p.1, encodeCollection p.2))) =
      some (l.map (fun p => (p.1, some p.2.toGo))) := by
  induction l with
  | nil => simp [unmarshalColEntries]
  | cons p rest ih =>
      simp [unmarshalColEntries, unmarshalColPtr_encode, ih]

theorem unmarshalDatabase_encode (db : Database) :
    unmarshalDatabase db.SaveToDisk = some db.toGo := by
  simp [Database.SaveToDisk, unmarshalDatabase, lookupA, unmarshalColMap,
    unmarshalColEntries_encode, Database.toGo]

theorem toGo_noneFree (db : Database) :
    (db.toGo).collections.any (fun p => p.2.isNone) = false := by
  rw [List.any_eq_false]
  intro p hp
  rw [Database.toGo] at hp
  obtain ⟨q, hq, rfl⟩ := List.mem_map.mp hp
  simp

theorem optListUnwrap_someMap {κ α : Type} (l : List (κ × α)) :
    optListUnwrap (l.map (fun p => (p.1, some p.2))) = some l := by
  induction l with
  | nil => simp [optListUnwrap]
  | cons p rest ih => simp [optListUnwrap, ih]

theorem toCollectionQ_toGo (c : Collection) :
    (c.toGo).toCollection? = some c := by
  simp [Collection.toGo, GoCollection.toCollection?, optListUnwrap_someMap]

theorem colsToDatabaseQ_toGo (l : List (String × Collection)) :
    colsToDatabase? (l.map (fun p => (p.1, some p.2.toGo))) = some l := by
  induction l with
  | nil => simp [colsToDatabase?]
  | cons p rest ih => simp [colsToDatabase?, toCollectionQ_toGo, ih]

theorem toDatabaseQ_toGo (db : Database) :
    (db.toGo).toDatabase? = some db := by
  simp [Database.toGo, GoDatabase.toDatabase?, colsToDatabaseQ_toGo]

theorem lookupA_mem {κ α : Type} [DecidableEq κ] {l : List (κ × α)} {k : κ}
    {v : α} (h : lookupA l k = some v) : (k, v) ∈ l := by
  induction l with
  | nil => simp [lookupA] at h
  | cons p rest ih =>
      obtain ⟨k', v'⟩ := p
      by_cases hk : k' = k
      · subst hk
        simp [lookupA] at h
        subst h
        exact List.mem_cons_self _ _
      · simp only [lookupA, if_neg hk] at h
        exact List.mem_cons_of_mem _ (ih h)

/-! Timestamp-invariant preservation along engine traces. -/

theorem DocsTimeOK_mono {db : Database} {t t' : Nat} (h : DocsTimeOK db t)
    (ht : t ≤ t') : DocsTimeOK db t' := by
  intro pc hpc pd hpd
  obtain ⟨h1, h2⟩ := h pc hpc pd hpd
  exact ⟨h1, le_trans h2 ht⟩

theorem applyDBOp_timeOK {db : Database} {t : Nat} (op : DBOp) {t' : Nat}
    (h : DocsTimeOK db t) (ht : t ≤ t') :
    DocsTimeOK (applyDBOp db op t') t' := by
  have hmono : DocsTimeOK db t' := DocsTimeOK_mono h ht
  cases op with
  | createCol n =>
      simp only [applyDBOp, Database.CreateCollection]
      cases hl : lookupA db.collections n with
      | some c => exact hmono
      | none =>
          intro pc hpc pd hpd
          rcases List.mem_append.mp hpc with hin | hnew
          · exact hmono pc hin pd hpd
          · rw [List.mem_singleton] at hnew
            subst hnew
            simp at hpd
  | deleteCol n =>
      simp only [applyDBOp, Database.DeleteCollection]
      cases hl : lookupA db.collections n with
      | none => exact hmono
      | some c =>
          intro pc hpc pd hpd
          exact hmono pc (mem_eraseA hpc) pd hpd
  | insertDoc cn id data =>
      simp only [applyDBOp]
      cases hl : lookupA db.collections cn with
      | none => exact hmono
      | some c =>
          intro pc hpc pd hpd
          rcases mem_setKeyA hpc with hin | heq
          · exact hmono pc hin pd hpd
          · subst heq
            simp only [Collection.Insert] at hpd
            cases hi : lookupA c.documents id with
            | some d0 =>
                rw [hi] at hpd
                exact hmono (cn, c) (lookupA_mem hl) pd hpd
            | none =>
                rw [hi] at hpd
                simp only at hpd
                rcases List.mem_append.mp hpd with hold | hnew
                · exact hmono (cn, c) (lookupA_mem hl) pd hold
                · rw [List.mem_singleton] at hnew
                  subst hnew
                  exact ⟨le_refl _, le_refl _⟩
  | updateDoc cn id data =>
      simp only [applyDBOp]
      cases hl : lookupA db.collections cn with
      | none => exact hmono
      | some c =>
          intro pc hpc pd hpd
          rcases mem_setKeyA hpc with hin | heq
          · exact hmono pc hin pd hpd
          · subst heq
            simp only [Collection.Update] at hpd
            cases hu : lookupA c.documents id with
            | none =>
                rw [hu] at hpd
                exact hmono (cn, c) (lookupA_mem hl) pd hpd
            | some d =>
                rw [hu] at hpd
                simp only at hpd
                rcases mem_setKeyA hpd with hold | hnew
                · exact hmono (cn, c) (lookupA_mem hl) pd hold
                · subst hnew
                  obtain ⟨hd1, hd2⟩ := h (cn, c) (lookupA_mem hl) (id, d) (lookupA_mem hu)
                  exact ⟨le_trans (le_trans hd1 hd2) ht, le_refl _⟩
  | deleteDoc cn id =>
      simp only [applyDBOp]
      cases hl : lookupA db.collections cn with
      | none => exact hmono
      | some c =>
          intro pc hpc pd hpd
          rcases mem_setKeyA hpc with hin | heq
          · exact hmono pc hin pd hpd
          · subst heq
            simp only [Collection.Delete] at hpd
            cases hd : lookupA c.documents id with
            | none =>
                rw [hd] at hpd
                exact hmono (cn, c) (lookupA_mem hl) pd hpd
            | some d0 =>
                rw [hd] at hpd
                exact hmono (cn, c) (lookupA_mem hl) pd (mem_eraseA hpd)

theorem runTrace_timesOK (ops : List (DBOp × Nat)) (db : Database) (t : Nat)
    (hdb : DocsTimeOK db t)
    (hch : List.Chain (fun a b => a < b) t (ops.map Prod.snd)) :
    timesOKb (runTrace db ops) = true := by
  induction ops generalizing db t with
  | nil =>
      simp only [runTrace, timesOKb, List.all_eq_true, decide_eq_true_eq]
      intro pc hpc pd hpd
      exact (hdb pc hpc pd hpd).1
  | cons p rest ih =>
      obtain ⟨op, tn⟩ := p
      rw [List.map_cons, List.chain_cons] at hch
      obtain ⟨hlt, hch'⟩ := hch
      exact ih (applyDBOp db op tn)
        tn (applyDBOp_timeOK op hdb (le_of_lt hlt)) hch'

/-! Claim theorems. -/

/-- C1: decode ∘ encode is the identity on catalogs: loading the bytes
produced by save reconstructs every collection's name and document set,
and every document's id, data (nested structure and value types
preserved), created_at and updated_at, for an arbitrary catalog
including empty collections — unmarshalling the saved tree yields
exactly the saved catalog (every pointer non-nil), which converts back
to the original, and LoadFromDisk on the saved bytes succeeds with that
catalog, whatever the prior state. -/
theorem c1_save_load_round_trip (db : Database) :
    unmarshalDatabase db.SaveToDisk = some db.toGo ∧
    GoDatabase.toDatabase? db.toGo = some db ∧
    ∀ db0 : Database,
      db0.LoadFromDisk (FileRead.bytes (some db.SaveToDisk)) =
        (LoadOutcome.ok, db.toGo) := by
  refine ⟨unmarshalDatabase_encode db, toDatabaseQ_toGo db, fun db0 => ?_⟩
  simp [Database.LoadFromDisk, unmarshalDatabase_encode db, toGo_noneFree db]

/-- C6: the claim says a snapshot that is not a valid catalog makes
load fail with CorruptSnapshot, not crash, leaving the catalog
unchanged.  The code violates this: the bytes
`{"collections":{"a":null}}` unmarshal successfully into a map with a
nil `*Collection`, `db.Collections` is replaced (database.go:224), and
the mutex-reinitialisation loop (database.go:227-229) then dereferences
the nil pointer and panics — a crash after mutation.  This theorem
evaluates the model at the failing input (and at the well-behaved
malformed-bytes and missing-file inputs around it). -/
theorem c6_load_nil_collection_mutates_then_panics :
    unmarshalDatabase (Value.obj [("collections", Value.obj [("a", Value.null)])]) =
      some ⟨[("a", none)]⟩ ∧
    dbEx.LoadFromDisk
        (FileRead.bytes (some (Value.obj [("collections", Value.obj [("a", Value.null)])]))) =
      (LoadOutcome.panicked, ⟨[("a", none)]⟩) ∧
    (dbEx.LoadFromDisk
        (FileRead.bytes (some (Value.obj [("collections", Value.obj [("a", Value.null)])])))).2.collections.map
        Prod.fst ≠ dbEx.collections.map Prod.fst ∧
    dbEx.LoadFromDisk (FileRead.bytes none) =
      (LoadOutcome.err DBError.corruptSnapshot, dbEx.toGo) ∧
    dbEx.LoadFromDisk FileRead.notExist = (LoadOutcome.ok, dbEx.toGo) :=
  ⟨rfl, rfl, by decide, rfl, rfl⟩

/-- C7: update on an absent id fails with NotFound and changes nothing;
update on a present id replaces the entire data mapping (afterwards get
returns exactly the new data, no old field retained), keeps created_at
and sets updated_at to the clock value of the call. -/
theorem c7_update_full_replace (c : Collection) (id : String)
    (data2 : List (String × Value)) (now : Nat) :
    (lookupA c.documents id = none →
      c.Update id data2 now = (Except.error (DBError.notFound id), c)) ∧
    (∀ d, lookupA c.documents id = some d →
      (c.Update id data2 now).1 = Except.ok () ∧
      Collection.Get (c.Update id data2 now).2 id =
        Except.ok ⟨d.id, data2, d.createdAt, now⟩) := by
  constructor
  · intro h
    simp [Collection.Update, h]
  · intro d h
    have hs : lookupA (setKeyA c.documents id ⟨d.id, data2, d.createdAt, now⟩) id
        = some ⟨d.id, data2, d.createdAt, now⟩ :=
      lookupA_setKeyA_self _ _ _ (by simp [h])
    constructor
    · simp [Collection.Update, h]
    · simp [Collection.Update, h, Collection.Get, hs]

/-- Witness for C7: updating u1 of the example collection replaces its
data wholesale, keeps created_at = 1 and stamps updated_at = 9. -/
theorem c7_witness :
    (cityColl.Update "u1" [("zip", Value.num 90210)] 9).1 = Except.ok () ∧
    Collection.Get (cityColl.Update "u1" [("zip", Value.num 90210)] 9).2 "u1" =
      Except.ok ⟨"u1", [("zip", Value.num 90210)], 1, 9⟩ :=
  (c7_update_full_replace cityColl "u1" [("zip", Value.num 90210)] 9).2
    ⟨"u1", [("city", Value.str "NY")], 1, 1⟩ rfl

/-- C9: inserting an id already present fails with AlreadyExists and
leaves the collection unchanged — the first document's data and
timestamps are untouched; inserting a fresh id succeeds and stores a
document with created_at = updated_at = now. -/
theorem c9_insert_spec (c : Collection) (id : String)
    (data : List (String × Value)) (now : Nat) :
    (∀ d, lookupA c.documents id = some d →
      c.Insert id data now = (Except.error (DBError.alreadyExists id), c) ∧
      Collection.Get (c.Insert id data now).2 id = Except.ok d) ∧
    (lookupA c.documents id = none →
      (c.Insert id data now).1 = Except.ok () ∧
      Collection.Get (c.Insert id data now).2 id =
        Except.ok ⟨id, data, now, now⟩) := by
  constructor
  · intro d h
    constructor
    · simp [Collection.Insert, h]
    · simp [Collection.Insert, h, Collection.Get]
  · intro h
    constructor
    · simp [Collection.Insert, h]
    · simp [Collection.Insert, h, Collection.Get,
        lookupA_append_self c.documents id ⟨id, data, now, now⟩ h]

/-- Witness for C9: re-inserting u1 fails and leaves it intact;
inserting the fresh id u9 stores it with equal timestamps. -/
theorem c9_witness :
    (cityColl.Insert "u1" [] 9 =
      (Except.error (DBError.alreadyExists "u1"), cityColl) ∧
     Collection.Get (cityColl.Insert "u1" [] 9).2 "u1" =
      Except.ok ⟨"u1", [("city", Value.str "NY")], 1, 1⟩) ∧
    ((cityColl.Insert "u9" [("city", Value.str "LA")] 9).1 = Except.ok () ∧
     Collection.Get (cityColl.Insert "u9" [("city", Value.str "LA")] 9).2 "u9" =
      Except.ok ⟨"u9", [("city", Value.str "LA")], 9, 9⟩) :=
  ⟨(c9_insert_spec cityColl "u1" [] 9).1
     ⟨"u1", [("city", Value.str "NY")], 1, 1⟩ rfl,
   (c9_insert_spec cityColl "u9" [("city", Value.str "LA")] 9).2 rfl⟩

/-- C10: creating a fresh collection name succeeds, after which the
collection resolves by name and appears in the listing; a second create
of the same name fails with AlreadyExists and changes nothing else. -/
theorem c10_create_collection_spec (db : Database) (n : String)
    (h : lookupA db.collections n = none) :
    (db.CreateCollection n).1 = Except.ok () ∧
    Database.GetCollection (db.CreateCollection n).2 n = Except.ok ⟨n, []⟩ ∧
    n ∈ Database.ListCollections (db.CreateCollection n).2 ∧
    (db.CreateCollection n).2.CreateCollection n =
      (Except.error (DBError.alreadyExists n), (db.CreateCollection n).2) := by
  have hap := lookupA_append_self db.collections n (⟨n, []⟩ : Collection) h
  refine ⟨by simp [Database.CreateCollection, h], ?_, ?_, ?_⟩
  · simp [Database.CreateCollection, h, Database.GetCollection, hap]
  · simp [Database.CreateCollection, h, Database.ListCollections]
  · simp [Database.CreateCollection, h, hap]

/-- Witness for C10: the name "users" on the empty catalog. -/
theorem c10_witness :
    (NewDatabase.CreateCollection "users").1 = Except.ok () ∧
    Database.GetCollection (NewDatabase.CreateCollection "users").2 "users" =
      Except.ok ⟨"users", []⟩ ∧
    "users" ∈ Database.ListCollections (NewDatabase.CreateCollection "users").2 ∧
    (NewDatabase.CreateCollection "users").2.CreateCollection "users" =
      (Except.error (DBError.alreadyExists "users"),
       (NewDatabase.CreateCollection "users").2) :=
  c10_create_collection_spec NewDatabase "users" rfl

/-- C2 counterexample: the claim quantifies over every query value, but
when the query value and a stored field value are both arrays, the Go
interface comparison panics instead of returning the matching document
set — here both are the array `[]`, which native typed equality would
match, yet Query returns no result list at all (`none` models the
panic). -/
theorem c2_counterexample :
    Collection.Query ⟨"t", [("d1", ⟨"d1", [("tags", Value.arr [])], 1, 1⟩)]⟩
      "tags" (Value.arr []) = none := rfl

/-- C2 (amended): whenever no scanned document stores, at the queried
field, a value of the same non-comparable kind as the query value (in
particular whenever the query value is null, boolean, number or
string), Query returns exactly the documents whose data contains the
field with a value comparing equal under Go's typed equality; the
number 30 does not match the string "30", true does not match "true",
and a document without the field never matches. -/
theorem c2_query_exact_typed_match (c : Collection) (field : String) (v : Value)
    (h : queryComparable c field v = true) :
    Collection.Query c field v =
      some ((c.documents.map Prod.snd).filter (fun d => docMatches d field v)) ∧
    goEq (Value.num 30) (Value.str "30") = some false ∧
    goEq (Value.bool true) (Value.str "true") = some false ∧
    docMatches ⟨"noField", [], 0, 0⟩ field v = false := by
  refine ⟨queryDocs_eq_filter field v c.documents h, rfl, rfl, rfl⟩

/-- Witness for C2: the spec's own example — three documents with city
NY, NY, SF; querying city = "NY" returns exactly the first two. -/
theorem c2_witness :
    queryComparable cityColl "city" (Value.str "NY") = true ∧
    (Collection.Query cityColl "city" (Value.str "NY") =
      some ((cityColl.documents.map Prod.snd).filter
        (fun d => docMatches d "city" (Value.str "NY"))) ∧
     goEq (Value.num 30) (Value.str "30") = some false ∧
     goEq (Value.bool true) (Value.str "true") = some false ∧
     docMatches ⟨"noField", [], 0, 0⟩ "city" (Value.str "NY") = false) ∧
    Collection.Query cityColl "city" (Value.str "NY") =
      some [⟨"u1", [("city", Value.str "NY")], 1, 1⟩,
            ⟨"u2", [("city", Value.str "NY")], 2, 2⟩] :=
  ⟨rfl, c2_query_exact_typed_match cityColl "city" (Value.str "NY") rfl, rfl⟩

/-- C3: the claim says Query is total — a shape mismatch is a
non-match, never an error, for every combination of value model shapes.
The code violates this: when the query value and a stored value are
both arrays, or both objects, the Go `==` on `interface{}` panics
(comparing uncomparable types), modelled by Query returning `none`.
This theorem evaluates the code at the failing inputs. -/
theorem c3_query_panics_on_uncomparable :
    Collection.Query ⟨"t", [("d1", ⟨"d1", [("tags", Value.arr [Value.num 1])], 1, 1⟩)]⟩
      "tags" (Value.arr [Value.num 1]) = none ∧
    Collection.Query ⟨"t", [("d2", ⟨"d2", [("loc", Value.obj [("x", Value.num 1)])], 1, 1⟩)]⟩
      "loc" (Value.obj [("x", Value.num 1)]) = none ∧
    Collection.Query ⟨"t", [("d3", ⟨"d3", [("a", Value.str "s")], 1, 1⟩)]⟩
      "a" (Value.num 30) = some [] :=
  ⟨rfl, rfl, rfl⟩

/-- C4 counterexample: Get hands out the live `*Document`; after an
Update through the store, the document previously returned by Get shows
the new data and the new updated_at, so it was not an immutable
snapshot.  Concretely: insert u1 → {name: John} at clock 1, get u1
(pointer 0), update u1 → {name: Jane} at clock 2 — dereferencing the
same pointer now yields Jane with updated_at 2. -/
theorem c4_counterexample :
    hc1.Get "u1" = Except.ok 0 ∧
    (hc1.read 0).map Document.updatedAt = some 1 ∧
    (hc1.read 0).map (fun d => lookupA d.data "name") =
      some (some (Value.str "John")) ∧
    (hc2.read 0).map (fun d => lookupA d.data "name") =
      some (some (Value.str "Jane")) ∧
    (hc2.read 0).map Document.updatedAt = some 2 ∧
    (hc2.read 0).map Document.updatedAt ≠ (hc1.read 0).map Document.updatedAt :=
  ⟨rfl, rfl, rfl, rfl, rfl, by decide⟩

/-- C4 (amended): Get returns a live alias into the store, not an
immutable snapshot: if Get(id) returned pointer r holding document d,
then after Update(id, data2) the same pointer reads d with its data
replaced by data2 and updated_at set to the update's clock (created_at
kept), while after Delete(id) the pointer still reads d unchanged. -/
theorem c4_get_returns_live_alias (s : HeapCollection) (id : String) (r : Nat)
    (d : Document) (hr : s.Get id = Except.ok r) (hd : s.read r = some d)
    (data2 : List (String × Value)) (now : Nat) :
    (s.Update id data2 now).2.read r = some ⟨d.id, data2, d.createdAt, now⟩ ∧
    (s.Delete id).2.read r = some d := by
  cases hl : lookupA s.docRefs id with
  | none => simp [HeapCollection.Get, hl] at hr
  | some r' =>
      have hrr : r' = r := by
        simp [HeapCollection.Get, hl] at hr
        exact hr
      subst hrr
      have hd' : lookupA s.heap r' = some d := hd
      constructor
      · simp only [HeapCollection.Update, hl, HeapCollection.read,
          lookupA_updateCell, hd', Option.map_some']
      · simp [HeapCollection.Delete, hl, HeapCollection.read, hd']

/-- Witness for C4 (amended) at the concrete run: updating u1 rewrites
the cell behind the pointer Get returned; deleting leaves it. -/
theorem c4_witness :
    (hc1.Update "u1" [("name", Value.str "Jane")] 2).2.read 0 =
      some ⟨"u1", [("name", Value.str "Jane")], 1, 2⟩ ∧
    (hc1.Delete "u1").2.read 0 =
      some ⟨"u1", [("name", Value.str "John")], 1, 1⟩ :=
  c4_get_returns_live_alias hc1 "u1" 0
    ⟨"u1", [("name", Value.str "John")], 1, 1⟩ rfl rfl
    [("name", Value.str "Jane")] 2

/-- C5 counterexample: the engine itself does not reject empty
identifiers — creating a collection named "", inserting a document with
id "" and querying the field "" all go through without an InvalidInput
error (only the HTTP boundary layer checks for empty strings). -/
theorem c5_counterexample :
    (Database.CreateCollection ⟨[]⟩ "").1 = Except.ok () ∧
    (Collection.Insert ⟨"c", []⟩ "" [("k", Value.num 1)] 5).1 = Except.ok () ∧
    Collection.Query ⟨"c", [("d1", ⟨"d1", [("", Value.str "x")], 1, 1⟩)]⟩
      "" (Value.str "x") = some [⟨"d1", [("", Value.str "x")], 1, 1⟩] :=
  ⟨rfl, rfl, rfl⟩

/-- C5 (amended): the engine treats the empty string as an ordinary
identifier: create("") succeeds on a catalog without it and the
collection resolves under the name ""; insert with an empty document id
succeeds when fresh; query with an empty field name performs the normal
scan for the field "".  Empty-identifier rejection happens only in the
HTTP boundary layer. -/
theorem c5_engine_accepts_empty_identifiers (db : Database) (c : Collection)
    (data : List (String × Value)) (now : Nat) (v : Value)
    (h1 : lookupA db.collections "" = none)
    (h2 : lookupA c.documents "" = none)
    (h3 : queryComparable c "" v = true) :
    (db.CreateCollection "").1 = Except.ok () ∧
    Database.GetCollection (db.CreateCollection "").2 "" = Except.ok ⟨"", []⟩ ∧
    (c.Insert "" data now).1 = Except.ok () ∧
    Collection.Query c "" v =
      some ((c.documents.map Prod.snd).filter (fun d => docMatches d "" v)) := by
  refine ⟨by simp [Database.CreateCollection, h1], ?_,
    by simp [Collection.Insert, h2], queryDocs_eq_filter "" v c.documents h3⟩
  simp [Database.CreateCollection, h1, Database.GetCollection,
    lookupA_append_self db.collections "" (⟨"", []⟩ : Collection) h1]

/-- Witness for C5 (amended) on concrete states. -/
theorem c5_witness :
    (NewDatabase.CreateCollection "").1 = Except.ok () ∧
    Database.GetCollection (NewDatabase.CreateCollection "").2 "" =
      Except.ok ⟨"", []⟩ ∧
    (Collection.Insert ⟨"c", []⟩ "" [("k", Value.num 1)] 5).1 = Except.ok () ∧
    Collection.Query ⟨"c", []⟩ "" (Value.str "x") =
      some (((⟨"c", []⟩ : Collection).documents.map Prod.snd).filter
        (fun d => docMatches d "" (Value.str "x"))) :=
  c5_engine_accepts_empty_identifiers NewDatabase ⟨"c", []⟩
    [("k", Value.num 1)] 5 (Value.str "x") rfl rfl rfl

/-- C8: along any trace of engine operations from the empty catalog
with strictly increasing clock readings, every document satisfies
created_at ≤ updated_at; immediately after insert the two are equal;
an update applied strictly after the operations that built the state
makes updated_at strictly greater than created_at. -/
theorem c8_timestamp_invariant :
    (∀ (t0 : Nat) (ops : List (DBOp × Nat)),
      List.Chain (fun a b => a < b) t0 (ops.map Prod.snd) →
      timesOKb (runTrace NewDatabase ops) = true) ∧
    (∀ (c : Collection) (id : String) (data : List (String × Value)) (now : Nat),
      lookupA c.documents id = none →
      Collection.Get (c.Insert id data now).2 id =
        Except.ok ⟨id, data, now, now⟩) ∧
    (∀ (c : Collection) (t t' : Nat) (id : String)
      (data : List (String × Value)) (d : Document),
      docsTimeOKb c t = true → t < t' → lookupA c.documents id = some d →
      Collection.Get (c.Update id data t').2 id =
        Except.ok ⟨d.id, data, d.createdAt, t'⟩ ∧
      d.createdAt < t') := by
  refine ⟨fun t0 ops hch => ?_, fun c id data now h => ?_, ?_⟩
  · exact runTrace_timesOK ops NewDatabase t0 (by intro pc hpc; simp [NewDatabase] at hpc) hch
  · simp [Collection.Insert, h, Collection.Get,
      lookupA_append_self c.documents id ⟨id, data, now, now⟩ h]
  · intro c t t' id data d hb hlt h
    have hs : lookupA (setKeyA c.documents id ⟨d.id, data, d.createdAt, t'⟩) id
        = some ⟨d.id, data, d.createdAt, t'⟩ :=
      lookupA_setKeyA_self _ _ _ (by simp [h])
    constructor
    · simp [Collection.Update, h, Collection.Get, hs]
    · have hmem := lookupA_mem h
      have hb' := List.all_eq_true.mp hb (id, d) hmem
      simp only [Bool.and_eq_true, decide_eq_true_eq] at hb'
      exact lt_of_le_of_lt (le_trans hb'.1 hb'.2) hlt

/-- Witness for C8: a concrete create–insert–update trace with clocks
1 < 2 < 3, a concrete fresh insert, and a concrete update. -/
theorem c8_witness :
    timesOKb (runTrace NewDatabase opsEx) = true ∧
    Collection.Get ((⟨"c", []⟩ : Collection).Insert "u1" [] 5).2 "u1" =
      Except.ok ⟨"u1", [], 5, 5⟩ ∧
    (Collection.Get (cityColl.Update "u1" [] 9).2 "u1" =
      Except.ok ⟨"u1", [], 1, 9⟩ ∧ 1 < 9) :=
  ⟨c8_timestamp_invariant.1 0 opsEx (by simp [opsEx, List.chain_cons]),
   c8_timestamp_invariant.2.1 ⟨"c", []⟩ "u1" [] 5 rfl,
   c8_timestamp_invariant.2.2 cityColl 3 9 "u1" []
     ⟨"u1", [("city", Value.str "NY")], 1, 1⟩ (by decide) (by decide) rfl⟩
